import Mathlib

/-!
# Knowledge Graph Construction & Hybrid Retrieval Engine — verification

A shallow embedding of the algorithmic core of the repository
(`src/core/graph_builder.py` and `src/api/v1/retrieval.py`), together with
theorems settling the specification's testable properties.

Modelling conventions:
* Python dicts keyed by strings become insertion-ordered association lists
  (a dict preserves first-insertion order of keys; overwriting a value keeps
  the key's position).
* The `networkx.MultiDiGraph` becomes a list of `(id, data)` node pairs in
  insertion order plus a list of typed edges in insertion order (a multiset:
  parallel edges are permitted, as in `MultiDiGraph`).
* Python floats become exact rationals (`ℚ`); the numeric literals involved
  (0.6, 0.4, 0.1, 0.9, 0.8, 1.2, 6.0) are treated as the rationals they denote.
* Volatile or never-read attributes (`created_at` timestamps, `linking_method`,
  `confidence`, clause `content`/`tables`/`figures`/`depth`) are omitted: no
  verified property reads them and they are constants or timestamps.
* Fallible JSON loading is modelled by `Option Document`: `none` is a file
  whose `json.load` raised.
-/

namespace TestPlanGen

/-- One entry of a document's `requirements` list.  The builder reads the
fields with `req.get('type', 'unknown')`, `req.get('keyword', '')`,
`req.get('text', '')`; an absent key is `none`. -/
structure ReqEntry where
  type : Option String
  keyword : Option String
  text : Option String
deriving DecidableEq

/-- The `references` object of a document / clause node.  The builder reads
`references.get('internal_resolved', [])` and `references.get('standards', [])`;
an absent `references` key is the empty block. -/
structure RefBlock where
  internal_resolved : List String
  standards : List String
deriving DecidableEq

/-- A parsed JSON chunk document, restricted to the keys the builder reads.
String-valued keys read with `doc.get(k, '')` are modelled as `String` where
`""` stands for an absent key; `parent_id` is read as `doc.get('parent_id')`
and can be genuinely absent (`none`). -/
structure Document where
  chunk_id : String
  document_id : String
  clause_id : String
  title : String
  parent_id : Option String
  children_ids : List String
  requirements : List ReqEntry
  references : RefBlock
  source_file : String
deriving DecidableEq

/-- Attributes of a `Clause` node as written by `_create_nodes`. -/
structure ClauseData where
  chunk_id : String
  document_id : String
  clause_id : String
  title : String
  parent_id : Option String
  children_ids : List String
  references : RefBlock
  source_file : String
deriving DecidableEq

/-- Attributes of a `Requirement` node as written by `_create_nodes`. -/
structure ReqData where
  requirement_id : String
  parent_clause : String
  requirement_type : String
  keyword : String
  text : String
deriving DecidableEq

/-- Node attribute dictionaries, as the fixed variants actually written by the
builder (`node_type` is the variant tag). -/
inductive NodeData where
  | standard (document_id : String) (title : String)
  | clause (c : ClauseData)
  | requirement (r : ReqData)
  | externalStandard (standard_name : String)
deriving DecidableEq

/-- A directed typed edge.  `linking_method`, `confidence` and `created_at`
are omitted: they are constants per edge type (plus a timestamp). -/
structure Edge where
  src : String
  dst : String
  edge_type : String
deriving DecidableEq

/-- The `networkx.MultiDiGraph`: nodes in insertion order (ids unique),
edges in insertion order (parallel edges permitted). -/
structure Graph where
  nodes : List (String × NodeData)
  edges : List Edge
deriving DecidableEq

/-- Models `graph.has_node(id)`. -/
def Graph.hasNode (g : Graph) (id : String) : Bool :=
  g.nodes.any (fun p => p.1 == id)

/-- Models `graph.add_node(id, **attrs)`: a new id is appended; re-adding an existing
id overwrites its attributes in place (position in the iteration order is
kept).  The builder always passes a complete attribute dictionary, so the
dict-update of `networkx` amounts to replacement here. -/
def Graph.addNode (g : Graph) (id : String) (d : NodeData) : Graph :=
  if g.hasNode id then
    { g with nodes := g.nodes.map (fun p => if p.1 == id then (id, d) else p) }
  else
    { g with nodes := g.nodes ++ [(id, d)] }

/-- Models the `graph.nodes[id]` lookup (used by the sibling block of the structural
pass). -/
def Graph.nodeData (g : Graph) (id : String) : Option NodeData :=
  g.nodes.lookup id

/-- Models `graph.has_edge(u, v)` on a `MultiDiGraph`: true when ANY edge, of any
type, runs from `u` to `v`.  The source's `has_edge(u, v, key=0)` (sibling
guard) is equivalent, because auto keys are assigned `0, 1, 2, …` per ordered
pair and edges are never removed. -/
def Graph.hasEdge (g : Graph) (u v : String) : Bool :=
  g.edges.any (fun e => e.src == u && e.dst == v)

/-- Models `graph.add_edge(u, v, edge_type=t, …)` with no explicit key: always
appends a fresh parallel edge. -/
def Graph.addEdge (g : Graph) (u v t : String) : Graph :=
  { g with edges := g.edges ++ [⟨u, v, t⟩] }

/-- The source's recurring guarded-insertion pattern
`if not self.graph.has_edge(u, v): self.graph.add_edge(u, v, edge_type=t, …)`.
Note the guard tests for an edge of ANY type between the ordered pair. -/
def Graph.addEdgeIfAbsent (g : Graph) (u v t : String) : Graph :=
  if g.hasEdge u v then g else g.addEdge u v t

/-- Is there an edge of the given type from `u` to `v`? (observer used in the
theorems; the source exposes the same information through
`graph.edges(data=True)`). -/
def Graph.hasEdgeType (g : Graph) (u v t : String) : Bool :=
  g.edges.any (fun e => e.src == u && e.dst == v && e.edge_type == t)

/-- Requirement node id scheme `f"{chunk_id}::req_{idx}"`. -/
def reqNodeId (chunk_id : String) (idx : Nat) : String :=
  chunk_id ++ "::req_" ++ toString idx

/-- One iteration of the requirement loop of `_create_nodes`: add (or
overwrite) the Requirement node, then add the `CONTAINS_REQUIREMENT` edge —
unconditionally: this is the one `add_edge` in the builder that is not guarded
by a `has_edge` check. -/
def addRequirementNode (chunk_id : String) (g : Graph) (idx : Nat) (req : ReqEntry) : Graph :=
  let req_id := reqNodeId chunk_id idx
  let g := g.addNode req_id (.requirement
    { requirement_id := req_id
      parent_clause := chunk_id
      requirement_type := req.type.getD "unknown"
      keyword := req.keyword.getD ""
      text := req.text.getD "" })
  g.addEdge chunk_id req_id "CONTAINS_REQUIREMENT"

/-- One iteration of the document loop of `_create_nodes`.  The `List String`
component models the pass-local `standards` dict (only membership of
`document_id` is ever consulted). -/
def createNodesDoc (st : Graph × List String) (doc : Document) : Graph × List String :=
  if doc.chunk_id = "" ∨ doc.document_id = "" then st
  else
    let (g, seen) := st
    let (g, seen) :=
      if doc.document_id ∈ seen then (g, seen)
      else (g.addNode doc.document_id (.standard doc.document_id doc.document_id),
            seen ++ [doc.document_id])
    let g := g.addNode doc.chunk_id (.clause
      { chunk_id := doc.chunk_id
        document_id := doc.document_id
        clause_id := doc.clause_id
        title := doc.title
        parent_id := doc.parent_id
        children_ids := doc.children_ids
        references := doc.references
        source_file := doc.source_file })
    let g := g.addEdgeIfAbsent doc.document_id doc.chunk_id "CONTAINS_CLAUSE"
    let g := (doc.requirements.enum).foldl
      (fun g p => addRequirementNode doc.chunk_id g p.1 p.2) g
    (g, seen)

/-- Models `_create_nodes(documents)`. -/
def createNodes (g : Graph) (documents : List Document) : Graph :=
  (documents.foldl createNodesDoc (g, [])).1

/-- The `clause_lookup` dict built at the top of both link passes:
`clause_id → node_id` over all Clause nodes with a truthy `clause_id`;
a repeated `clause_id` keeps the key's position and overwrites the value. -/
def upsert (m : List (String × String)) (k v : String) : List (String × String) :=
  if m.any (fun p => p.1 == k) then
    m.map (fun p => if p.1 == k then (k, v) else p)
  else m ++ [(k, v)]

def clauseLookup (g : Graph) : List (String × String) :=
  g.nodes.foldl
    (fun acc p =>
      match p.2 with
      | .clause c => if c.clause_id = "" then acc else upsert acc c.clause_id p.1
      | _ => acc)
    []

/-- Python truthiness of `parent_id`: `None` and `""` are falsy. -/
def truthy : Option String → Option String
  | some p => if p = "" then none else some p
  | none => none

/-- The `children_ids` of a node's attribute dict via `.get('children_ids', [])`. -/
def childrenOf : Option NodeData → List String
  | some (.clause c) => c.children_ids
  | _ => []

/-- One iteration of the node loop of `_create_structural_links` (the
`clause_lookup` is fixed before the loop).  First the `PARENT_OF` block, then
the `SIBLING_OF` block; both fire only when `parent_id` is truthy and resolves
in the lookup. -/
def structuralStep (lookup : List (String × String)) (g : Graph)
    (entry : String × NodeData) : Graph :=
  match entry.2 with
  | .clause c =>
    let node_id := entry.1
    match truthy c.parent_id with
    | none => g
    | some pid =>
      match lookup.lookup pid with
      | none => g
      | some parent_node_id =>
        let g := g.addEdgeIfAbsent parent_node_id node_id "PARENT_OF"
        let children := childrenOf (g.nodeData parent_node_id)
        if c.clause_id ∈ children then
          children.foldl
            (fun g sibling_id =>
              if sibling_id ≠ c.clause_id then
                match lookup.lookup sibling_id with
                | some sibling_node_id => g.addEdgeIfAbsent node_id sibling_node_id "SIBLING_OF"
                | none => g
              else g)
            g
        else g
  | _ => g

/-- Models `_create_structural_links()`: node mutation does not occur during the
pass, so iterating the node list of the input graph is faithful. -/
def createStructuralLinks (g : Graph) : Graph :=
  let lookup := clauseLookup g
  g.nodes.foldl (structuralStep lookup) g

/-- One iteration of the node loop of `_create_reference_links`: the
`REFERENCES` block over `references['internal_resolved']`, then the
`CITES_STANDARD` block over `references['standards']`. -/
def referenceStep (lookup : List (String × String)) (g : Graph)
    (entry : String × NodeData) : Graph :=
  match entry.2 with
  | .clause c =>
    let node_id := entry.1
    let g := c.references.internal_resolved.foldl
      (fun g ref_clause_id =>
        match lookup.lookup ref_clause_id with
        | some ref_node_id => g.addEdgeIfAbsent node_id ref_node_id "REFERENCES"
        | none => g)
      g
    c.references.standards.foldl
      (fun g std_ref =>
        let std_node_id := "EXT::" ++ std_ref
        let g := if g.hasNode std_node_id then g
                 else g.addNode std_node_id (.externalStandard std_ref)
        g.addEdgeIfAbsent node_id std_node_id "CITES_STANDARD")
      g
  | _ => g

/-- Models `_create_reference_links()`: the source snapshots
`nodes_list = list(self.graph.nodes(data=True))` before the loop, so
ExternalStandard nodes created during the pass are not themselves visited. -/
def createReferenceLinks (g : Graph) : Graph :=
  let lookup := clauseLookup g
  g.nodes.foldl (referenceStep lookup) g

/-- Builder state: the graph plus the provenance set `processed_files`
(a Python set of relative paths; modelled as a duplicate-free list). -/
structure Builder where
  graph : Graph
  processed_files : List String
deriving DecidableEq

def emptyBuilder : Builder := { graph := { nodes := [], edges := [] }, processed_files := [] }

/-- Models `_compute_checksum()`: a sha256 over the canonical JSON of node count,
edge count and the lexicographically first 10 node ids.  The digest is
modelled by the canonical content itself (sha256 is injective for the
purposes of the checksum-equality properties; two equal canonical contents
give equal digests and that is the only direction the spec uses). -/
def insertSorted (s : String) : List String → List String
  | [] => [s]
  | t :: ts => if s ≤ t then s :: t :: ts else t :: insertSorted s ts

def sortStrings : List String → List String
  | [] => []
  | s :: ss => insertSorted s (sortStrings ss)

def computeChecksum (g : Graph) : Nat × Nat × List String :=
  (g.nodes.length, g.edges.length, (sortStrings (g.nodes.map (fun p => p.1))).take 10)

/-- The dictionary returned by `build_from_directory`.  On the
no-new-files early return the source omits the `graph_checksum` key, hence
the `Option`. -/
structure BuildResult where
  nodes_created : Nat
  edges_created : Nat
  graph_checksum : Option (Nat × Nat × List String)
  new_files_processed : Nat
deriving DecidableEq

/-- Add a path to the processed-files set (`set.add`). -/
def insertProcessed (pf : List String) (p : String) : List String :=
  if p ∈ pf then pf else pf ++ [p]

/-- The `new_files` list of `build_from_directory`: every enumerated file
whose provenance key is not yet in `processed_files`. -/
def newFiles (b : Builder) (files : List (String × Option Document)) :
    List (String × Option Document) :=
  files.filter (fun f => !(b.processed_files.contains f.1))

/-- The document-loading loop: each file that parses contributes its document
(with `_source_file` stamped) and its provenance key; a file on which
`json.load` raised is skipped — in particular its key is NOT added to
`processed_files`. -/
def loadStep (st : List Document × List String) (f : String × Option Document) :
    List Document × List String :=
  match f.2 with
  | some d => (st.1 ++ [{ d with source_file := f.1 }], insertProcessed st.2 f.1)
  | none => st

def loadDocuments (pf : List String) (new_files : List (String × Option Document)) :
    List Document × List String :=
  new_files.foldl loadStep ([], pf)

/-- Phases 1 to 3 of `build_from_directory`: node creation, then the
structural-link pass if enabled, then the reference-link pass if enabled. -/
def applyPasses (g : Graph) (docs : List Document) (es er : Bool) : Graph :=
  let g := createNodes g docs
  let g := if es then createStructuralLinks g else g
  if er then createReferenceLinks g else g

/-- The builder state after a non-trivial `build_from_directory` call. -/
def postBuilder (b : Builder) (files : List (String × Option Document))
    (es er : Bool) : Builder :=
  { graph := applyPasses b.graph (loadDocuments b.processed_files (newFiles b files)).1 es er
    processed_files := (loadDocuments b.processed_files (newFiles b files)).2 }

/-- Models `build_from_directory(data_path, enable_structural, enable_reference)`.

The directory enumeration (`sorted(data_dir.rglob('*.json'))` with
separator-normalized relative paths) is modelled by the input list `files` of
`(relative path, parse result)` pairs, already in sorted enumeration order;
`none` is a file on which `json.load` raised.  When no new files remain the
source returns early with the current statistics, `new_files_processed = 0`
and NO `graph_checksum` key. -/
def build (b : Builder) (files : List (String × Option Document))
    (enableStructural enableReference : Bool) : Builder × BuildResult :=
  if (newFiles b files).isEmpty then
    (b, { nodes_created := b.graph.nodes.length
          edges_created := b.graph.edges.length
          graph_checksum := none
          new_files_processed := 0 })
  else
    (postBuilder b files enableStructural enableReference,
     { nodes_created := (postBuilder b files enableStructural enableReference).graph.nodes.length
       edges_created := (postBuilder b files enableStructural enableReference).graph.edges.length
       graph_checksum := some (computeChecksum
         (postBuilder b files enableStructural enableReference).graph)
       new_files_processed := (newFiles b files).length })

/-! ## Hybrid retrieval (`query_knowledge_graph` in `src/api/v1/retrieval.py`)

The endpoint's inputs are modelled by:
* `nodes` — the graph's node list `graph_builder.graph.nodes(data=True)` in
  iteration (= insertion) order;
* `sem` — the Semantic Provider's hits as `(node_id, relevance_score)` pairs
  in hit order (the source folds them into the dict `semantic_results`,
  keyed by `node_id`);
* `search_terms` — the deduplicated lower-cased term list derived from the
  component profile (its derivation from profile strings is pure string
  plumbing; the scoring below takes the term list as given).

The optional reranking step hands the surviving candidates to an external
Reranker model (an external collaborator, gated on `settings.enable_reranking`
whose defining module is not part of the core); the pipeline below is the
`reranked = False` path. -/

/-- Models `term in req_text`: Python substring test, as char-list infix. -/
def strContainsAux (needle : List Char) : List Char → Bool
  | [] => needle.isEmpty
  | c :: rest => needle.isPrefixOf (c :: rest) || strContainsAux needle rest

def strContains (hay needle : String) : Bool :=
  strContainsAux needle.data hay.data

/-- A candidate record of the `combined_results` dict (only the fields the
scoring pipeline reads or writes; `node_type`, `requirement_id`,
`parent_clause`, `keyword` and `retrieval_method` are carried alongside in the
source and never consulted again). -/
structure Candidate where
  node_id : String
  requirement_type : String
  text : String
  semantic_score : ℚ
  keyword_score : ℚ
  matched_terms : List String
deriving DecidableEq

/-- Models `node_data.get('text', '')`: only Requirement nodes carry a `text` key. -/
def nodeText : NodeData → String
  | .requirement r => r.text
  | _ => ""

/-- Models `node_data.get('requirement_type', 'mandatory')`: only Requirement nodes
carry the key. -/
def nodeReqType : NodeData → String
  | .requirement r => r.requirement_type
  | _ => "mandatory"

/-- The fresh record built by `get_or_create_result`. -/
def newCandidate (node_id : String) (d : NodeData) : Candidate :=
  { node_id := node_id
    requirement_type := nodeReqType d
    text := nodeText d
    semantic_score := 0
    keyword_score := 0
    matched_terms := [] }

/-- Models `get_or_create_result(node_id, node_data)`: appends a fresh record when
the id is not yet a key of `combined_results`. -/
def getOrCreate (acc : List Candidate) (node_id : String) (d : NodeData) : List Candidate :=
  if acc.any (fun c => c.node_id == node_id) then acc
  else acc ++ [newCandidate node_id d]

/-- Write a field of the candidate record held under `node_id`
(`res['…'] = …` after `get_or_create_result`). -/
def setSemantic (acc : List Candidate) (node_id : String) (s : ℚ) : List Candidate :=
  acc.map (fun c => if c.node_id == node_id then { c with semantic_score := s } else c)

def setKeyword (acc : List Candidate) (node_id : String) (k : ℚ) (ts : List String) :
    List Candidate :=
  acc.map (fun c =>
    if c.node_id == node_id then { c with keyword_score := k, matched_terms := ts } else c)

/-- The semantic loop: for each hit whose id is a node of the graph, create
the candidate and set its `semantic_score`. -/
def processSemantic (nodes : List (String × NodeData)) (sem : List (String × ℚ)) :
    List Candidate :=
  sem.foldl
    (fun acc hit =>
      match nodes.lookup hit.1 with
      | some d => setSemantic (getOrCreate acc hit.1 d) hit.1 hit.2
      | none => acc)
    []

/-- The lexical score assigned by the keyword loop to a requirement with
`matches` distinct term hits: `min(1.0, matches / 6.0)`, then
`min(1.0, k_score * 1.2)` if the requirement is mandatory. -/
def lexScore (matchCount : Nat) (requirement_type : String) : ℚ :=
  let k := min 1 ((matchCount : ℚ) / 6)
  if requirement_type = "mandatory" then min 1 (k * 1.2) else k

/-- One iteration of the keyword loop over the graph's nodes: skip
non-Requirement nodes and empty texts; count term hits; with at least one
hit, create the candidate if needed and set `keyword_score` and
`matched_terms`. -/
def keywordStep (search_terms : List String) (acc : List Candidate)
    (entry : String × NodeData) : List Candidate :=
  match entry.2 with
  | .requirement r =>
    let req_text := r.text.toLower
    if req_text = "" then acc
    else
      let matched := search_terms.filter (fun t => strContains req_text t)
      if matched.length = 0 then acc
      else
        setKeyword (getOrCreate acc entry.1 (.requirement r)) entry.1
          (lexScore matched.length r.requirement_type) matched
  | _ => acc

def processKeyword (search_terms : List String) (nodes : List (String × NodeData))
    (acc : List Candidate) : List Candidate :=
  nodes.foldl (keywordStep search_terms) acc

/-- The candidate list of `combined_results` after both loops, in insertion
order. -/
def combinedResults (nodes : List (String × NodeData)) (sem : List (String × ℚ))
    (search_terms : List String) : List Candidate :=
  processKeyword search_terms nodes (processSemantic nodes sem)

/-- The score fusion of step 4: both signals positive get
`0.6·s + 0.4·k + 0.1`, a lone positive semantic signal `s·0.9`, a lone
positive keyword signal `k·0.8`, otherwise `0.0`; the result is capped by
`min(1.0, ·)`. -/
def fuse (s k : ℚ) : ℚ :=
  let f : ℚ :=
    if 0 < s ∧ 0 < k then 0.6 * s + 0.4 * k + 0.1
    else if 0 < s then s * 0.9
    else if 0 < k then k * 0.8
    else 0
  min 1 f

/-- Models `round(x, 3)`: the published `relevance_score` is the final score rounded
to three decimals.  (Python rounds float ties to even; ties and float
representation artefacts play no role in any verified property, so half-up
rounding on ℚ stands in.) -/
def round3 (q : ℚ) : ℚ := (⌊q * 1000 + 1 / 2⌋ : ℚ) / 1000

/-- A fully scored candidate: `final_score` is the fused value the source
filters on, `relevance_score` its 3-decimal rounding, stored on the record
and used as the sort key. -/
structure Scored where
  cand : Candidate
  final_score : ℚ
  relevance_score : ℚ
deriving DecidableEq

def scoreCandidates (l : List Candidate) : List Scored :=
  l.map (fun c =>
    let f := fuse c.semantic_score c.keyword_score
    { cand := c, final_score := f, relevance_score := round3 f })

/-- Models `if final_score >= request.min_confidence: final_list.append(res)` —
the filter tests the unrounded fused score. -/
def filterByConfidence (min_confidence : ℚ) (l : List Scored) : List Scored :=
  l.filter (fun s => min_confidence ≤ s.final_score)

/-- Models `final_list.sort(key=lambda x: x['relevance_score'], reverse=True)`:
a stable descending sort.  Stable insertion: a record is placed before the
first element whose key is ≤ its own, so records with equal keys keep their
relative order, exactly as Python's stable `list.sort`. -/
def insertDesc (x : Scored) : List Scored → List Scored
  | [] => [x]
  | y :: ys => if y.relevance_score ≤ x.relevance_score then x :: y :: ys
               else y :: insertDesc x ys

def sortDesc : List Scored → List Scored
  | [] => []
  | x :: xs => insertDesc x (sortDesc xs)

/-- The confidence-surviving candidate list, scored, in candidate insertion
order (the state of `final_list` just before the sort). -/
def confidenceSurvivors (nodes : List (String × NodeData)) (sem : List (String × ℚ))
    (search_terms : List String) (min_confidence : ℚ) : List Scored :=
  filterByConfidence min_confidence (scoreCandidates (combinedResults nodes sem search_terms))

/-- The full pipeline of `query_knowledge_graph` (reranking disabled):
merge, score, confidence-filter, stable sort descending by
`relevance_score`, truncate to `max_results`. -/
def queryPipeline (nodes : List (String × NodeData)) (sem : List (String × ℚ))
    (search_terms : List String) (min_confidence : ℚ) (max_results : Nat) : List Scored :=
  (sortDesc (confidenceSurvivors nodes sem search_terms min_confidence)).take max_results

/-! ## Concrete inputs used by counterexamples and witnesses -/

/-- A requirement entry `{type: mandatory, keyword: shall, text: …}`. -/
def vibReq : ReqEntry :=
  { type := some "mandatory", keyword := some "shall", text := some "shall withstand vibration" }

/-- A document with one requirement, used (twice, under two file names) to
exhibit duplicate `CONTAINS_REQUIREMENT` edges. -/
def docDup : Document :=
  { chunk_id := "C", document_id := "S", clause_id := "4", title := "t"
    parent_id := none, children_ids := [], requirements := [vibReq]
    references := ⟨[], []⟩, source_file := "" }

/-- Two distinct files carrying the same `chunk_id`. -/
def filesDup : List (String × Option Document) :=
  [("a.json", some docDup), ("b.json", some { docDup with title := "t2" })]

/-- Parent clause `4` whose internal references also resolve to its child. -/
def docParentA : Document :=
  { chunk_id := "A", document_id := "S", clause_id := "4", title := "parent"
    parent_id := none, children_ids := ["4.1"], requirements := []
    references := ⟨["4.1"], []⟩, source_file := "" }

/-- Child clause `4.1` of `docParentA`. -/
def docChildB : Document :=
  { chunk_id := "B", document_id := "S", clause_id := "4.1", title := "child"
    parent_id := some "4", children_ids := [], requirements := []
    references := ⟨[], []⟩, source_file := "" }

def filesParentRef : List (String × Option Document) :=
  [("a.json", some docParentA), ("b.json", some docChildB)]

/-- Clause attributes for the reference-pass counterexample: clause `1`
references clause `1.1`. -/
def clauseP : ClauseData :=
  { chunk_id := "P", document_id := "T", clause_id := "1", title := "p"
    parent_id := none, children_ids := ["1.1"], references := ⟨["1.1"], []⟩
    source_file := "" }

def clauseQ : ClauseData :=
  { chunk_id := "Q", document_id := "T", clause_id := "1.1", title := "q"
    parent_id := some "1", children_ids := [], references := ⟨[], []⟩
    source_file := "" }

/-- A graph in the state the reference pass sees it after the structural pass
already linked `P` to `Q` with `PARENT_OF`. -/
def graphPQ : Graph :=
  { nodes := [("P", .clause clauseP), ("Q", .clause clauseQ)]
    edges := [{ src := "P", dst := "Q", edge_type := "PARENT_OF" }] }

/-- Like `graphPQ` but with no pre-existing edge between the pair. -/
def graphPQfree : Graph :=
  { nodes := [("P", .clause clauseP), ("Q", .clause clauseQ)], edges := [] }

/-- Two Requirement nodes with identical text, listed in the graph with the
larger node id first (node iteration order is builder insertion order, not
id order). -/
def reqDataB : ReqData :=
  { requirement_id := "B", parent_clause := "c1", requirement_type := "unknown"
    keyword := "shall", text := "shall withstand vibration" }

def reqDataA : ReqData :=
  { requirement_id := "A", parent_clause := "c1", requirement_type := "unknown"
    keyword := "shall", text := "shall withstand vibration" }

def tieNodes : List (String × NodeData) :=
  [("B", .requirement reqDataB), ("A", .requirement reqDataA)]

/-- A one-requirement node list for the scoring witnesses. -/
def reqDataW : ReqData :=
  { requirement_id := "W", parent_clause := "c1", requirement_type := "mandatory"
    keyword := "shall", text := "shall withstand vibration" }

def witNodes : List (String × NodeData) := [("W", .requirement reqDataW)]

def witSem : List (String × ℚ) := [("W", 1/2)]

/-- The scored candidate the pipeline produces on `witNodes`/`witSem` with
term list `["vibration"]`: semantic 1/2, lexical `min(1, 1/6)·1.2 = 1/5`
(mandatory boost), fused `0.6·(1/2) + 0.4·(1/5) + 0.1 = 12/25`. -/
def witScored : Scored :=
  { cand :=
      { node_id := "W", requirement_type := "mandatory"
        text := "shall withstand vibration"
        semantic_score := 1/2, keyword_score := 1/5
        matched_terms := ["vibration"] }
    final_score := 12/25, relevance_score := 12/25 }

/-- A document that parses but has no `chunk_id`. -/
def docNoIds : Document :=
  { chunk_id := "", document_id := "S2", clause_id := "", title := ""
    parent_id := none, children_ids := [], requirements := []
    references := ⟨[], []⟩, source_file := "" }

/-- One unreadable file and one parseable-but-unaddressable file. -/
def filesMixed : List (String × Option Document) :=
  [("bad.json", none), ("empty.json", some docNoIds)]

/-- A single well-formed file (for the idempotence witness). -/
def filesOK : List (String × Option Document) := [("a.json", some docDup)]

/-! ## Helper lemmas: score fusion -/

theorem fuse_pos_pos {s k : ℚ} (hs : 0 < s) (hk : 0 < k) :
    fuse s k = min 1 (0.6 * s + 0.4 * k + 0.1) := by
  unfold fuse
  rw [if_pos ⟨hs, hk⟩]

theorem fuse_pos_np {s k : ℚ} (hs : 0 < s) (hk : ¬ 0 < k) :
    fuse s k = min 1 (s * 0.9) := by
  unfold fuse
  rw [if_neg (by exact fun h => hk h.2), if_pos hs]

theorem fuse_np_pos {s k : ℚ} (hs : ¬ 0 < s) (hk : 0 < k) :
    fuse s k = min 1 (k * 0.8) := by
  unfold fuse
  rw [if_neg (by exact fun h => hs h.1), if_neg hs, if_pos hk]

/-! ## Helper lemmas: the stable descending sort -/

theorem mem_insertDesc {x a : Scored} : ∀ {l : List Scored},
    a ∈ insertDesc x l ↔ a = x ∨ a ∈ l
  | [] => by simp [insertDesc]
  | y :: ys => by
    unfold insertDesc
    split
    · simp
    · simp only [List.mem_cons, mem_insertDesc (l := ys)]
      tauto

theorem mem_sortDesc {a : Scored} : ∀ {l : List Scored}, a ∈ sortDesc l ↔ a ∈ l
  | [] => Iff.rfl
  | x :: xs => by
    unfold sortDesc
    rw [mem_insertDesc, mem_sortDesc (l := xs)]
    simp

theorem pairwise_insertDesc {x : Scored} :
    ∀ {l : List Scored},
      l.Pairwise (fun a b => b.relevance_score ≤ a.relevance_score) →
      (insertDesc x l).Pairwise (fun a b => b.relevance_score ≤ a.relevance_score)
  | [], _ => List.pairwise_singleton _ _
  | y :: ys, h => by
    rw [List.pairwise_cons] at h
    unfold insertDesc
    split
    · rename_i hyx
      refine List.Pairwise.cons ?_ (List.Pairwise.cons h.1 h.2)
      intro b hb
      rcases List.mem_cons.mp hb with rfl | hb
      · exact hyx
      · exact le_trans (h.1 b hb) hyx
    · rename_i hyx
      refine List.Pairwise.cons ?_ (pairwise_insertDesc h.2)
      intro b hb
      rcases mem_insertDesc.mp hb with rfl | hb
      · exact le_of_lt (lt_of_not_le hyx)
      · exact h.1 b hb

theorem pairwise_sortDesc :
    ∀ (l : List Scored),
      (sortDesc l).Pairwise (fun a b => b.relevance_score ≤ a.relevance_score)
  | [] => List.Pairwise.nil
  | x :: xs => pairwise_insertDesc (pairwise_sortDesc xs)

/-- Stability of the sort, one insertion at a time: restricted to any single
value of the sort key, inserting keeps the record in front of nothing it
followed.  (The elements the insertion walks past all have a strictly larger
key than the inserted record, so they are invisible to the filter when the
inserted record has the filtered key.) -/
theorem filter_insertDesc (q : ℚ) (x : Scored) :
    ∀ (l : List Scored),
      (insertDesc x l).filter (fun s => decide (s.relevance_score = q)) =
        (x :: l).filter (fun s => decide (s.relevance_score = q))
  | [] => rfl
  | y :: ys => by
    unfold insertDesc
    split
    · rfl
    · rename_i hyx
      have ih := filter_insertDesc q x ys
      by_cases hx : x.relevance_score = q
      · have hy : ¬ y.relevance_score = q := fun h => hyx (le_of_eq (h.trans hx.symm))
        simpa [List.filter_cons, hx, hy] using ih
      · simp only [List.filter_cons, decide_eq_true_eq, hx, if_false] at ih ⊢
        simp [ih]

theorem filter_sortDesc (q : ℚ) :
    ∀ (l : List Scored),
      (sortDesc l).filter (fun s => decide (s.relevance_score = q)) =
        l.filter (fun s => decide (s.relevance_score = q))
  | [] => rfl
  | x :: xs => by
    unfold sortDesc
    rw [filter_insertDesc]
    simp only [List.filter_cons]
    rw [filter_sortDesc q xs]

/-! ## Helper lemmas: edge uniqueness through the builder

Every edge insertion in the builder except `CONTAINS_REQUIREMENT` is guarded
by `has_edge(src, dst)` — a check for an edge of ANY type.  The invariant
preserved by every builder operation is therefore: among the edges whose type
is not `CONTAINS_REQUIREMENT` ("guarded" edges), no two share an ordered
`(src, dst)` pair. -/

def guardedUnique (g : Graph) : Prop :=
  g.edges.Pairwise (fun e₁ e₂ =>
    e₁.src = e₂.src → e₁.dst = e₂.dst →
    e₁.edge_type = "CONTAINS_REQUIREMENT" ∨ e₂.edge_type = "CONTAINS_REQUIREMENT")

theorem edges_addNode (g : Graph) (id : String) (d : NodeData) :
    (g.addNode id d).edges = g.edges := by
  unfold Graph.addNode
  split <;> rfl

theorem guardedUnique_addNode {g : Graph} (id : String) (d : NodeData)
    (h : guardedUnique g) : guardedUnique (g.addNode id d) := by
  unfold guardedUnique
  rw [edges_addNode]
  exact h

theorem not_hasEdge_iff {g : Graph} {u v : String} :
    g.hasEdge u v = false ↔ ∀ e ∈ g.edges, ¬(e.src = u ∧ e.dst = v) := by
  unfold Graph.hasEdge
  simp only [List.any_eq_false, Bool.and_eq_true, beq_iff_eq]

theorem guardedUnique_addEdgeIfAbsent {g : Graph} (u v t : String)
    (h : guardedUnique g) : guardedUnique (g.addEdgeIfAbsent u v t) := by
  unfold Graph.addEdgeIfAbsent
  split
  · exact h
  · rename_i habs
    have habs' : ∀ e ∈ g.edges, ¬(e.src = u ∧ e.dst = v) :=
      not_hasEdge_iff.mp (Bool.eq_false_iff.mpr habs)
    unfold guardedUnique Graph.addEdge at *
    rw [List.pairwise_append]
    refine ⟨h, List.pairwise_singleton _ _, ?_⟩
    intro e he e' he'
    rw [List.mem_singleton] at he'
    subst he'
    intro hsrc hdst
    exact absurd ⟨hsrc, hdst⟩ (habs' e he)

theorem guardedUnique_addEdgeCR {g : Graph} (u v : String)
    (h : guardedUnique g) : guardedUnique (g.addEdge u v "CONTAINS_REQUIREMENT") := by
  unfold guardedUnique Graph.addEdge at *
  rw [List.pairwise_append]
  refine ⟨h, List.pairwise_singleton _ _, ?_⟩
  intro e he e' he'
  rw [List.mem_singleton] at he'
  subst he'
  intro _ _
  exact Or.inr rfl

theorem foldl_preserve {α σ : Type _} (P : σ → Prop) (f : σ → α → σ)
    (hf : ∀ s a, P s → P (f s a)) : ∀ (l : List α) (s : σ), P s → P (l.foldl f s)
  | [], _, h => h
  | a :: l, s, h => foldl_preserve P f hf l (f s a) (hf s a h)

theorem guardedUnique_addRequirementNode {g : Graph} (chunk : String) (idx : Nat)
    (req : ReqEntry) (h : guardedUnique g) :
    guardedUnique (addRequirementNode chunk g idx req) := by
  unfold addRequirementNode
  exact guardedUnique_addEdgeCR _ _ (guardedUnique_addNode _ _ h)

theorem guardedUnique_createNodesDoc {st : Graph × List String} (doc : Document)
    (h : guardedUnique st.1) : guardedUnique (createNodesDoc st doc).1 := by
  obtain ⟨g, seen⟩ := st
  unfold createNodesDoc
  split
  · exact h
  · dsimp only
    split <;>
      exact foldl_preserve (fun g => guardedUnique g)
        (fun (g : Graph) (p : Nat × ReqEntry) => addRequirementNode doc.chunk_id g p.1 p.2)
        (fun g p hg => guardedUnique_addRequirementNode _ _ _ hg) _ _
        (guardedUnique_addEdgeIfAbsent _ _ _
          (guardedUnique_addNode _ _
            (by first | exact h | exact guardedUnique_addNode _ _ h)))

theorem guardedUnique_createNodes {g : Graph} (docs : List Document)
    (h : guardedUnique g) : guardedUnique (createNodes g docs) := by
  unfold createNodes
  exact foldl_preserve (fun st => guardedUnique st.1) createNodesDoc
    (fun st doc hst => guardedUnique_createNodesDoc doc hst) docs (g, []) h

theorem guardedUnique_structuralStep {g : Graph} (lookup : List (String × String))
    (entry : String × NodeData) (h : guardedUnique g) :
    guardedUnique (structuralStep lookup g entry) := by
  unfold structuralStep
  match entry.2 with
  | .standard _ _ => exact h
  | .requirement _ => exact h
  | .externalStandard _ => exact h
  | .clause c =>
    dsimp only
    match truthy c.parent_id with
    | none => exact h
    | some pid =>
      dsimp only
      match lookup.lookup pid with
      | none => exact h
      | some pnid =>
        dsimp only
        split
        · apply foldl_preserve (fun g => guardedUnique g)
          · intro g sib hg
            dsimp only
            split
            · match lookup.lookup sib with
              | some snid => exact guardedUnique_addEdgeIfAbsent _ _ _ hg
              | none => exact hg
            · exact hg
          · exact guardedUnique_addEdgeIfAbsent _ _ _ h
        · exact guardedUnique_addEdgeIfAbsent _ _ _ h

theorem guardedUnique_createStructuralLinks {g : Graph}
    (h : guardedUnique g) : guardedUnique (createStructuralLinks g) := by
  unfold createStructuralLinks
  exact foldl_preserve (fun g => guardedUnique g) _
    (fun g e hg => guardedUnique_structuralStep _ _ hg) _ _ h

theorem guardedUnique_referenceStep {g : Graph} (lookup : List (String × String))
    (entry : String × NodeData) (h : guardedUnique g) :
    guardedUnique (referenceStep lookup g entry) := by
  unfold referenceStep
  match entry.2 with
  | .standard _ _ => exact h
  | .requirement _ => exact h
  | .externalStandard _ => exact h
  | .clause c =>
    dsimp only
    apply foldl_preserve (fun g => guardedUnique g)
    · intro g s hg
      dsimp only
      apply guardedUnique_addEdgeIfAbsent
      split
      · exact hg
      · exact guardedUnique_addNode _ _ hg
    · apply foldl_preserve (fun g => guardedUnique g)
      · intro g r hg
        match lookup.lookup r with
        | some t => exact guardedUnique_addEdgeIfAbsent _ _ _ hg
        | none => exact hg
      · exact h

theorem guardedUnique_createReferenceLinks {g : Graph}
    (h : guardedUnique g) : guardedUnique (createReferenceLinks g) := by
  unfold createReferenceLinks
  exact foldl_preserve (fun g => guardedUnique g) _
    (fun g e hg => guardedUnique_referenceStep _ _ hg) _ _ h

theorem guardedUnique_applyPasses {g : Graph} (docs : List Document) (es er : Bool)
    (h : guardedUnique g) : guardedUnique (applyPasses g docs es er) := by
  unfold applyPasses
  have h1 := guardedUnique_createNodes docs h
  cases es <;> cases er <;> simp only [Bool.false_eq_true, if_true, if_false] <;>
    first
      | exact h1
      | exact guardedUnique_createStructuralLinks h1
      | exact guardedUnique_createReferenceLinks h1
      | exact guardedUnique_createReferenceLinks (guardedUnique_createStructuralLinks h1)

theorem guardedUnique_build {b : Builder} (files : List (String × Option Document))
    (es er : Bool) (h : guardedUnique b.graph) :
    guardedUnique (build b files es er).1.graph := by
  unfold build
  split
  · exact h
  · exact guardedUnique_applyPasses _ _ _ h

/-- From the pairwise invariant: for any non-`CONTAINS_REQUIREMENT` type, at
most one edge per ordered pair, list-level version. -/
theorem guarded_filter_len {u v t : String} (ht : t ≠ "CONTAINS_REQUIREMENT") :
    ∀ {es : List Edge},
      es.Pairwise (fun e₁ e₂ =>
        e₁.src = e₂.src → e₁.dst = e₂.dst →
        e₁.edge_type = "CONTAINS_REQUIREMENT" ∨ e₂.edge_type = "CONTAINS_REQUIREMENT") →
      (es.filter (fun e => e.src == u && e.dst == v && e.edge_type == t)).length ≤ 1
  | [], _ => by simp
  | e :: es, h => by
    rw [List.pairwise_cons] at h
    rw [List.filter_cons]
    split
    · rename_i hp
      simp only [Bool.and_eq_true, beq_iff_eq] at hp
      have hnil : es.filter (fun e => e.src == u && e.dst == v && e.edge_type == t) = [] := by
        rw [List.filter_eq_nil_iff]
        intro a ha hpa
        simp only [Bool.and_eq_true, beq_iff_eq] at hpa
        have := h.1 a ha (hp.1.1.trans hpa.1.1.symm) (hp.1.2.trans hpa.1.2.symm)
        rcases this with h' | h'
        · exact ht (hp.2.symm ▸ h')
        · exact ht (hpa.2.symm ▸ h')
      rw [hnil]
      simp
    · exact guarded_filter_len ht h.2

theorem filter_length_le_one_of_guardedUnique {g : Graph} (h : guardedUnique g)
    (u v t : String) (ht : t ≠ "CONTAINS_REQUIREMENT") :
    (g.edges.filter (fun e => e.src == u && e.dst == v && e.edge_type == t)).length ≤ 1 :=
  guarded_filter_len ht h

/-! ## Helper lemmas: edges only accumulate (for the reference-pass claims) -/

theorem hasEdge_addEdge {g : Graph} (u v t a b : String) (h : g.hasEdge a b = true) :
    (g.addEdge u v t).hasEdge a b = true := by
  unfold Graph.hasEdge Graph.addEdge at *
  simp only [List.any_append, Bool.or_eq_true]
  exact Or.inl h

theorem hasEdge_addEdge_self (g : Graph) (u v t : String) :
    (g.addEdge u v t).hasEdge u v = true := by
  unfold Graph.hasEdge Graph.addEdge
  simp

theorem hasEdge_addEdgeIfAbsent {g : Graph} (u v t a b : String) (h : g.hasEdge a b = true) :
    (g.addEdgeIfAbsent u v t).hasEdge a b = true := by
  unfold Graph.addEdgeIfAbsent
  split
  · exact h
  · exact hasEdge_addEdge _ _ _ _ _ h

theorem hasEdge_addEdgeIfAbsent_self (g : Graph) (u v t : String) :
    (g.addEdgeIfAbsent u v t).hasEdge u v = true := by
  unfold Graph.addEdgeIfAbsent
  split
  · assumption
  · exact hasEdge_addEdge_self _ _ _ _

theorem hasEdge_addNode (g : Graph) (id : String) (d : NodeData) (a b : String) :
    (g.addNode id d).hasEdge a b = g.hasEdge a b := by
  unfold Graph.hasEdge
  rw [edges_addNode]

theorem hasEdge_referenceStep {lookup : List (String × String)} {g : Graph}
    {entry : String × NodeData} {a b : String} (h : g.hasEdge a b = true) :
    (referenceStep lookup g entry).hasEdge a b = true := by
  unfold referenceStep
  match entry.2 with
  | .standard _ _ => exact h
  | .requirement _ => exact h
  | .externalStandard _ => exact h
  | .clause c =>
    dsimp only
    apply foldl_preserve (fun (g : Graph) => g.hasEdge a b = true)
    · intro g s hg
      dsimp only
      apply hasEdge_addEdgeIfAbsent
      split
      · exact hg
      · rw [hasEdge_addNode]
        exact hg
    · apply foldl_preserve (fun (g : Graph) => g.hasEdge a b = true)
      · intro g r hg
        match lookup.lookup r with
        | some t => exact hasEdge_addEdgeIfAbsent _ _ _ _ _ hg
        | none => exact hg
      · exact h

/-- The internal-references loop of `referenceStep` establishes an edge from
`node_id` to the resolution of any entry of the list. -/
theorem internalFold_ensures (lookup : List (String × String)) (node_id target ref : String)
    (hres : lookup.lookup ref = some target) :
    ∀ (refs : List String) (g : Graph), ref ∈ refs →
      ((refs.foldl
        (fun g ref_clause_id =>
          match lookup.lookup ref_clause_id with
          | some ref_node_id => g.addEdgeIfAbsent node_id ref_node_id "REFERENCES"
          | none => g) g).hasEdge node_id target = true)
  | [], _, hmem => absurd hmem (List.not_mem_nil _)
  | r :: rest, g, hmem => by
    rw [List.foldl_cons]
    by_cases hr : ref = r
    · subst hr
      apply foldl_preserve (fun (g : Graph) => g.hasEdge node_id target = true)
      · intro g r' hg
        match lookup.lookup r' with
        | some t => exact hasEdge_addEdgeIfAbsent _ _ _ _ _ hg
        | none => exact hg
      · rw [hres]
        exact hasEdge_addEdgeIfAbsent_self _ _ _ _
    · have hmem' : ref ∈ rest := by
        rcases List.mem_cons.mp hmem with h' | h'
        · exact absurd h' hr
        · exact h'
      exact internalFold_ensures lookup node_id target ref hres rest _ hmem'

theorem referenceStep_ensures (lookup : List (String × String)) (g : Graph)
    (id : String) (c : ClauseData) (ref target : String)
    (href : ref ∈ c.references.internal_resolved)
    (hres : lookup.lookup ref = some target) :
    (referenceStep lookup g (id, .clause c)).hasEdge id target = true := by
  unfold referenceStep
  dsimp only
  apply foldl_preserve (fun (g : Graph) => g.hasEdge id target = true)
  · intro g s hg
    dsimp only
    apply hasEdge_addEdgeIfAbsent
    split
    · exact hg
    · rw [hasEdge_addNode]
      exact hg
  · exact internalFold_ensures lookup id target ref hres _ g href

/-! ## Helper lemmas: the provenance set through `build` -/

theorem mem_insertProcessed_iff {pf : List String} {p q : String} :
    q ∈ insertProcessed pf p ↔ q ∈ pf ∨ q = p := by
  unfold insertProcessed
  split
  · rename_i hp
    constructor
    · exact Or.inl
    · rintro (h | rfl)
      · exact h
      · exact hp
  · simp

theorem loadStep_processed_mono {q : String} (st : List Document × List String)
    (f : String × Option Document) (h : q ∈ st.2) : q ∈ (loadStep st f).2 := by
  unfold loadStep
  match f.2 with
  | some d => exact mem_insertProcessed_iff.mpr (Or.inl h)
  | none => exact h

theorem loadFold_processed_mono {q : String} (nf : List (String × Option Document))
    (st : List Document × List String) (h : q ∈ st.2) : q ∈ (nf.foldl loadStep st).2 :=
  foldl_preserve (fun st => q ∈ st.2) loadStep loadStep_processed_mono nf st h

theorem loadFold_processed_adds {p : String} {d : Document} :
    ∀ (nf : List (String × Option Document)) (st : List Document × List String),
      (p, some d) ∈ nf → p ∈ (nf.foldl loadStep st).2
  | [], _, hmem => absurd hmem (List.not_mem_nil _)
  | f :: rest, st, hmem => by
    rw [List.foldl_cons]
    by_cases hf : (p, some d) = f
    · subst hf
      apply loadFold_processed_mono
      exact mem_insertProcessed_iff.mpr (Or.inr rfl)
    · have hmem' : (p, some d) ∈ rest := by
        rcases List.mem_cons.mp hmem with h' | h'
        · exact absurd h' hf
        · exact h'
      exact loadFold_processed_adds rest _ hmem'

theorem loadFold_processed_only {q : String} :
    ∀ (nf : List (String × Option Document)) (st : List Document × List String),
      q ∈ (nf.foldl loadStep st).2 → q ∈ st.2 ∨ ∃ d, (q, some d) ∈ nf
  | [], _, h => Or.inl h
  | f :: rest, st, h => by
    rw [List.foldl_cons] at h
    rcases loadFold_processed_only rest (loadStep st f) h with h' | ⟨d, hd⟩
    · unfold loadStep at h'
      match hf : f.2 with
      | some d =>
        rw [hf] at h'
        rcases mem_insertProcessed_iff.mp h' with h'' | rfl
        · exact Or.inl h''
        · refine Or.inr ⟨d, ?_⟩
          have : f = (f.1, some d) := by
            cases f
            simp_all
          rw [← this]
          exact List.mem_cons_self _ _
      | none =>
        rw [hf] at h'
        exact Or.inl h'
    · exact Or.inr ⟨d, List.mem_cons_of_mem _ hd⟩

theorem mem_newFiles_iff {b : Builder} {files : List (String × Option Document)}
    {f : String × Option Document} :
    f ∈ newFiles b files ↔ f ∈ files ∧ f.1 ∉ b.processed_files := by
  unfold newFiles
  simp [List.mem_filter]

theorem newFiles_isEmpty_iff {b : Builder} {files : List (String × Option Document)} :
    (newFiles b files).isEmpty = true ↔ ∀ f ∈ files, f.1 ∈ b.processed_files := by
  unfold newFiles
  rw [List.isEmpty_iff, List.filter_eq_nil_iff]
  simp

/-- The early-return branch of `build_from_directory`. -/
theorem build_of_isEmpty {b : Builder} {files : List (String × Option Document)}
    (es er : Bool) (h : (newFiles b files).isEmpty = true) :
    build b files es er =
      (b, { nodes_created := b.graph.nodes.length
            edges_created := b.graph.edges.length
            graph_checksum := none
            new_files_processed := 0 }) := by
  unfold build
  rw [if_pos h]

/-- The main branch of `build_from_directory`. -/
theorem build_of_not_isEmpty {b : Builder} {files : List (String × Option Document)}
    (es er : Bool) (h : ¬ (newFiles b files).isEmpty = true) :
    build b files es er =
      (postBuilder b files es er,
       { nodes_created := (postBuilder b files es er).graph.nodes.length
         edges_created := (postBuilder b files es er).graph.edges.length
         graph_checksum := some (computeChecksum (postBuilder b files es er).graph)
         new_files_processed := (newFiles b files).length }) := by
  unfold build
  rw [if_neg h]

/-- Every file that parses is in the provenance set after a build. -/
theorem processed_of_some {b : Builder} {files : List (String × Option Document)}
    {p : String} {d : Document} (es er : Bool) (hmem : (p, some d) ∈ files) :
    p ∈ (build b files es er).1.processed_files := by
  by_cases hne : (newFiles b files).isEmpty = true
  · rw [build_of_isEmpty es er hne]
    exact newFiles_isEmpty_iff.mp hne _ hmem
  · rw [build_of_not_isEmpty es er hne]
    unfold postBuilder loadDocuments
    dsimp only
    by_cases hp : p ∈ b.processed_files
    · exact loadFold_processed_mono _ _ hp
    · exact loadFold_processed_adds _ _ (mem_newFiles_iff.mpr ⟨hmem, hp⟩)

/-- The provenance set only grows, and only by keys of files that parsed. -/
theorem processed_build_iff {b : Builder} {files : List (String × Option Document)}
    {q : String} (es er : Bool) :
    q ∈ (build b files es er).1.processed_files ↔
      q ∈ b.processed_files ∨ ∃ d, (q, some d) ∈ newFiles b files := by
  by_cases hne : (newFiles b files).isEmpty = true
  · rw [build_of_isEmpty es er hne]
    dsimp only
    constructor
    · exact Or.inl
    · rintro (h | ⟨d, hd⟩)
      · exact h
      · rw [List.isEmpty_iff.mp hne] at hd
        exact absurd hd (List.not_mem_nil _)
  · rw [build_of_not_isEmpty es er hne]
    unfold postBuilder loadDocuments
    dsimp only
    constructor
    · exact loadFold_processed_only _ _
    · rintro (h | ⟨d, hd⟩)
      · exact loadFold_processed_mono _ _ h
      · exact loadFold_processed_adds _ _ hd

/-- In a path-duplicate-free file list, an entry is determined by its path. -/
theorem snd_eq_of_nodup_paths {α β : Type _} :
    ∀ {l : List (α × β)}, (l.map Prod.fst).Nodup →
      ∀ {a : α} {x y : β}, (a, x) ∈ l → (a, y) ∈ l → x = y
  | [], _, _, _, _, hx, _ => absurd hx (List.not_mem_nil _)
  | f :: rest, h, a, x, y, hx, hy => by
    rw [List.map_cons, List.nodup_cons] at h
    rcases List.mem_cons.mp hx with rfl | hx' <;>
      rcases List.mem_cons.mp hy with hy' | hy'
    · exact (congrArg Prod.snd hy').symm
    · exact absurd (List.mem_map_of_mem Prod.fst hy') (by simpa using h.1)
    · rw [← hy'] at h
      exact absurd (List.mem_map_of_mem Prod.fst hx') (by simpa using h.1)
    · exact snd_eq_of_nodup_paths h.2 hx' hy'

/-! ## The claims -/

/-- C1: for every candidate considered by `query`, the final fused score is
`min(1, 0.6·semantic + 0.4·keyword + 0.1)` when both scores are positive,
`min(1, 0.9·semantic)` when only the semantic score is positive, and
`min(1, 0.8·keyword)` when only the keyword score is positive (an absent
score counts as 0 in the candidate record). -/
theorem c1_fused_score (nodes : List (String × NodeData)) (sem : List (String × ℚ))
    (terms : List String) (r : Scored)
    (hr : r ∈ scoreCandidates (combinedResults nodes sem terms)) :
    (0 < r.cand.semantic_score → 0 < r.cand.keyword_score →
      r.final_score = min 1 (0.6 * r.cand.semantic_score + 0.4 * r.cand.keyword_score + 0.1)) ∧
    (0 < r.cand.semantic_score → ¬ 0 < r.cand.keyword_score →
      r.final_score = min 1 (0.9 * r.cand.semantic_score)) ∧
    (¬ 0 < r.cand.semantic_score → 0 < r.cand.keyword_score →
      r.final_score = min 1 (0.8 * r.cand.keyword_score)) := by
  unfold scoreCandidates at hr
  rcases List.mem_map.mp hr with ⟨c, _, heq⟩
  subst heq
  dsimp only
  refine ⟨fun hs hk => ?_, fun hs hk => ?_, fun hs hk => ?_⟩
  · exact fuse_pos_pos hs hk
  · rw [fuse_pos_np hs hk, mul_comm]
  · rw [fuse_np_pos hs hk, mul_comm]

/-- C1 witness: the pipeline on one mandatory requirement with one semantic
hit (score 1/2) and one matching term produces the candidate `witScored`,
and its fused score is the both-positive formula. -/
theorem c1_fused_score_witness :
    witScored ∈ scoreCandidates (combinedResults witNodes witSem ["vibration"]) ∧
    (0 : ℚ) < witScored.cand.semantic_score ∧
    (0 : ℚ) < witScored.cand.keyword_score ∧
    witScored.final_score =
      min 1 (0.6 * witScored.cand.semantic_score + 0.4 * witScored.cand.keyword_score + 0.1) := by
  have hmem : witScored ∈ scoreCandidates (combinedResults witNodes witSem ["vibration"]) := by
    with_unfolding_all decide
  have hs : (0 : ℚ) < witScored.cand.semantic_score := by norm_num [witScored]
  have hk : (0 : ℚ) < witScored.cand.keyword_score := by norm_num [witScored]
  exact ⟨hmem, hs, hk, (c1_fused_score witNodes witSem ["vibration"] witScored hmem).1 hs hk⟩

/-- C4 counterexample: with the keyword score fixed at 1, raising the
semantic score from 0 to 1/100 DROPS the fused score (from 0.8 to 0.506):
the claimed monotonicity across the zero boundary is false. -/
theorem c4_counterexample :
    (0 : ℚ) < 1/100 ∧ fuse (1/100) 1 < fuse 0 1 := by
  constructor
  · norm_num
  · with_unfolding_all decide

/-- C4 (amended): fusion is monotone in each score as long as the increased
score starts positive: for `0 < a ≤ b ≤ 1` and fixed `c ∈ [0, 1]`,
`fuse a c ≤ fuse b c` and `fuse c a ≤ fuse c b`.  (Increasing a score from 0
to a positive value can decrease the result, as `c4_counterexample` shows.) -/
theorem c4_fusion_monotonicity (a b c : ℚ) (ha : 0 < a) (hab : a ≤ b) (hb1 : b ≤ 1)
    (hc0 : 0 ≤ c) (hc1 : c ≤ 1) :
    fuse a c ≤ fuse b c ∧ fuse c a ≤ fuse c b := by
  have hb : 0 < b := lt_of_lt_of_le ha hab
  rcases eq_or_lt_of_le hc0 with hc | hc
  · rw [← hc]
    constructor
    · rw [fuse_pos_np ha (lt_irrefl 0), fuse_pos_np hb (lt_irrefl 0)]
      exact min_le_min le_rfl (by nlinarith)
    · rw [fuse_np_pos (lt_irrefl 0) ha, fuse_np_pos (lt_irrefl 0) hb]
      exact min_le_min le_rfl (by nlinarith)
  · constructor
    · rw [fuse_pos_pos ha hc, fuse_pos_pos hb hc]
      exact min_le_min le_rfl (by linarith)
    · rw [fuse_pos_pos hc ha, fuse_pos_pos hc hb]
      exact min_le_min le_rfl (by linarith)

/-- C4 witness: the amended monotonicity at `a = 1/2`, `b = 3/4`, `c = 1/2`. -/
theorem c4_fusion_monotonicity_witness :
    (0 : ℚ) < 1/2 ∧ (1/2 : ℚ) ≤ 3/4 ∧ (3/4 : ℚ) ≤ 1 ∧ (0 : ℚ) ≤ 1/2 ∧ (1/2 : ℚ) ≤ 1 ∧
    (fuse (1/2) (1/2) ≤ fuse (3/4) (1/2) ∧ fuse (1/2) (1/2) ≤ fuse (1/2) (3/4)) :=
  ⟨by norm_num, by norm_num, by norm_num, by norm_num, by norm_num,
   c4_fusion_monotonicity (1/2) (3/4) (1/2) (by norm_num) (by norm_num) (by norm_num)
     (by norm_num) (by norm_num)⟩

/-- C8: no result returned by the query pipeline has a final score below
`min_confidence`. -/
theorem c8_confidence_filter (nodes : List (String × NodeData)) (sem : List (String × ℚ))
    (terms : List String) (minC : ℚ) (maxR : Nat) (r : Scored)
    (hr : r ∈ queryPipeline nodes sem terms minC maxR) : minC ≤ r.final_score := by
  unfold queryPipeline at hr
  have h1 := mem_sortDesc.mp (List.mem_of_mem_take hr)
  unfold confidenceSurvivors filterByConfidence at h1
  exact of_decide_eq_true (List.mem_filter.mp h1).2

/-- C8 witness: on the one-requirement input with threshold 1/10, the sole
returned result indeed scores at least 1/10. -/
theorem c8_confidence_filter_witness :
    witScored ∈ queryPipeline witNodes witSem ["vibration"] (1/10) 15 ∧
    (1/10 : ℚ) ≤ witScored.final_score := by
  have hmem : witScored ∈ queryPipeline witNodes witSem ["vibration"] (1/10) 15 := by
    with_unfolding_all decide
  exact ⟨hmem, c8_confidence_filter witNodes witSem ["vibration"] (1/10) 15 witScored hmem⟩

set_option maxRecDepth 16000 in
/-- C3 counterexample: two candidates with EQUAL final scores come back in
candidate-enumeration order (`"B"` before `"A"`), not node-id ascending
(`"A" < "B"`), because Python's stable sort keeps the original order of
equal-keyed records and never consults node ids. -/
theorem c3_counterexample :
    (queryPipeline tieNodes [] ["vibration"] 0 15).map (fun s => s.cand.node_id) = ["B", "A"] ∧
    (queryPipeline tieNodes [] ["vibration"] 0 15).map (fun s => s.relevance_score) =
      [133/1000, 133/1000] ∧
    ("A" : String) < "B" := by
  refine ⟨?_, ?_, ?_⟩ <;> with_unfolding_all decide

/-- C3 (amended): the returned list is sorted in descending order of the
published (3-decimal-rounded) score, and the sort is stable: restricted to
any one score value, the returned order is exactly the candidate-enumeration
order of the confidence survivors — NOT node-id ascending. -/
theorem c3_sort_order (nodes : List (String × NodeData)) (sem : List (String × ℚ))
    (terms : List String) (minC : ℚ) (maxR : Nat) :
    (queryPipeline nodes sem terms minC maxR).Pairwise
      (fun a b => b.relevance_score ≤ a.relevance_score) ∧
    ∀ q : ℚ,
      (sortDesc (confidenceSurvivors nodes sem terms minC)).filter
          (fun s => decide (s.relevance_score = q)) =
        (confidenceSurvivors nodes sem terms minC).filter
          (fun s => decide (s.relevance_score = q)) := by
  constructor
  · exact (pairwise_sortDesc _).sublist (List.take_sublist _ _)
  · intro q
    exact filter_sortDesc q _

/-- C7: the lexical score of a scanned requirement with `m` distinct matching
terms is `min(1, m/6)`, boosted to `min(1, min(1, m/6)·1.2)` when the
requirement is mandatory; 6 matches saturate at 1, 3 matches give 1/2, and a
requirement with zero matches is not added to the candidates at all. -/
theorem c7_lexical_score (terms : List String) (acc : List Candidate) (id : String)
    (r : ReqData) (m : Nat) (t : String)
    (hterms : terms.Nodup) (hfresh : ∀ c ∈ acc, c.node_id ≠ id) :
    ((terms.filter (fun s => strContains r.text.toLower s)).length = 0 →
      keywordStep terms acc (id, .requirement r) = acc) ∧
    (r.text.toLower ≠ "" →
     (terms.filter (fun s => strContains r.text.toLower s)).length ≠ 0 →
      keywordStep terms acc (id, .requirement r) =
        acc ++ [{ node_id := id
                  requirement_type := r.requirement_type
                  text := r.text
                  semantic_score := 0
                  keyword_score := lexScore
                    (terms.filter (fun s => strContains r.text.toLower s)).length
                    r.requirement_type
                  matched_terms := terms.filter (fun s => strContains r.text.toLower s) }]) ∧
    (t ≠ "mandatory" → lexScore m t = min 1 ((m : ℚ) / 6)) ∧
    (lexScore m "mandatory" = min 1 (min 1 ((m : ℚ) / 6) * 1.2)) ∧
    (t ≠ "mandatory" → lexScore 6 t = 1) ∧
    (t ≠ "mandatory" → lexScore 3 t = 1/2) := by
  have hany : acc.any (fun c => c.node_id == id) = false := by
    rw [List.any_eq_false]
    intro c hc
    simpa using hfresh c hc
  have hmapid : ∀ (g : Candidate → Candidate),
      acc.map (fun c => if c.node_id == id then g c else c) = acc := by
    intro g
    conv_rhs => rw [← List.map_id acc]
    apply List.map_congr_left
    intro c hc
    have hcid : (c.node_id == id) = false := by simpa using hfresh c hc
    simp [hcid]
  refine ⟨?_, ?_, ?_, ?_, ?_, ?_⟩
  · intro hz
    unfold keywordStep
    dsimp only
    split <;> rfl
  · intro htext hnz
    unfold keywordStep
    dsimp only
    rw [if_neg htext, if_neg hnz]
    unfold getOrCreate
    rw [hany]
    simp only [Bool.false_eq_true, if_false]
    unfold setKeyword
    rw [List.map_append, hmapid]
    simp [newCandidate, nodeText, nodeReqType]
  · intro ht
    unfold lexScore
    dsimp only
    rw [if_neg ht]
  · unfold lexScore
    dsimp only
    rw [if_pos rfl]
  · intro ht
    unfold lexScore
    dsimp only
    rw [if_neg ht]
    norm_num
  · intro ht
    unfold lexScore
    dsimp only
    rw [if_neg ht]
    norm_num

/-- C7 witness: one term matching the mandatory requirement `reqDataW`:
the step appends exactly one candidate with lexical score
`min(1, min(1, 1/6)·1.2) = 1/5`, and the saturation values at 6 and 3
matches. -/
theorem c7_lexical_score_witness :
    (["vibration"] : List String).Nodup ∧
    (∀ c ∈ ([] : List Candidate), c.node_id ≠ "W") ∧
    ("shall withstand vibration".toLower ≠ "") ∧
    ((["vibration"].filter
        (fun s => strContains (reqDataW.text.toLower) s)).length ≠ 0) ∧
    keywordStep ["vibration"] [] ("W", .requirement reqDataW) =
      [] ++ [{ node_id := "W"
               requirement_type := reqDataW.requirement_type
               text := reqDataW.text
               semantic_score := 0
               keyword_score := lexScore
                 (["vibration"].filter
                   (fun s => strContains (reqDataW.text.toLower) s)).length
                 reqDataW.requirement_type
               matched_terms := ["vibration"].filter
                 (fun s => strContains (reqDataW.text.toLower) s) }] ∧
    lexScore 6 "unknown" = 1 ∧ lexScore 3 "unknown" = 1/2 := by
  have h := c7_lexical_score ["vibration"] [] "W" reqDataW 0 "unknown"
    (by decide) (by intro c hc; exact absurd hc (List.not_mem_nil c))
  refine ⟨by decide, by intro c hc; exact absurd hc (List.not_mem_nil c),
    by with_unfolding_all decide, by with_unfolding_all decide, ?_,
    h.2.2.2.2.1 (by decide), h.2.2.2.2.2 (by decide)⟩
  exact h.2.1 (by with_unfolding_all decide) (by with_unfolding_all decide)

/-- C2 counterexample: a directory whose single file fails to parse: the
loader deliberately leaves it out of `processed_files`, so the second call on
the unchanged directory reports `new_files_processed = 1`, not 0. -/
theorem c2_counterexample :
    (build (build emptyBuilder [("bad.json", none)] true true).1
      [("bad.json", none)] true true).2.new_files_processed = 1 := by
  decide

/-- C2 (amended): when every file of the directory parses, the second
`buildFromDirectory` call on the unchanged directory processes 0 new files,
returns the builder unchanged, and the graph checksum is unchanged. -/
theorem c2_idempotent_ingestion (b : Builder) (files : List (String × Option Document))
    (es er : Bool) (hparse : ∀ f ∈ files, f.2 ≠ none) :
    (build (build b files es er).1 files es er).2.new_files_processed = 0 ∧
    (build (build b files es er).1 files es er).1 = (build b files es er).1 ∧
    computeChecksum (build (build b files es er).1 files es er).1.graph =
      computeChecksum (build b files es er).1.graph := by
  have hall : ∀ f ∈ files, f.1 ∈ (build b files es er).1.processed_files := by
    intro f hf
    match hf2 : f.2 with
    | none => exact absurd hf2 (hparse f hf)
    | some d =>
      have : (f.1, some d) ∈ files := by
        have : f = (f.1, some d) := by
          cases f
          simp_all
        rw [← this]
        exact hf
      exact processed_of_some es er this
  have hempty : (newFiles (build b files es er).1 files).isEmpty = true :=
    newFiles_isEmpty_iff.mpr hall
  rw [build_of_isEmpty es er hempty]
  exact ⟨rfl, rfl, rfl⟩

/-- C2 witness: the amended idempotence on a one-file directory that parses. -/
theorem c2_idempotent_ingestion_witness :
    (∀ f ∈ filesOK, f.2 ≠ none) ∧
    (build (build emptyBuilder filesOK true true).1 filesOK true true).2.new_files_processed = 0 ∧
    (build (build emptyBuilder filesOK true true).1 filesOK true true).1 =
      (build emptyBuilder filesOK true true).1 ∧
    computeChecksum (build (build emptyBuilder filesOK true true).1 filesOK true true).1.graph =
      computeChecksum (build emptyBuilder filesOK true true).1.graph :=
  ⟨by decide, c2_idempotent_ingestion emptyBuilder filesOK true true (by decide)⟩

/-- C5 counterexample: two processed documents share `chunk_id = "C"`; the
`CONTAINS_REQUIREMENT` insertion is unguarded, so TWO parallel
`CONTAINS_REQUIREMENT` edges from `"C"` to `"C::req_0"` exist after one
build — the claimed at-most-one property fails for this edge type. -/
theorem c5_counterexample :
    ((build emptyBuilder filesDup true true).1.graph.edges.filter
      (fun e => e.src == "C" && e.dst == "C::req_0" &&
        e.edge_type == "CONTAINS_REQUIREMENT")).length = 2 := by
  decide

/-- C5 (amended): every edge insertion except `CONTAINS_REQUIREMENT` is
guarded by a has-edge check, so after any build (starting from a graph
satisfying the invariant) no two non-`CONTAINS_REQUIREMENT` edges share an
ordered pair; in particular at most one edge per `(src, dst, type)` for every
type other than `CONTAINS_REQUIREMENT`.  `CONTAINS_REQUIREMENT` is inserted
once per requirement entry of each processed document and can be duplicated
when distinct documents share a `chunk_id`. -/
theorem c5_edge_uniqueness (b : Builder) (files : List (String × Option Document))
    (es er : Bool) (h : guardedUnique b.graph) :
    guardedUnique (build b files es er).1.graph ∧
    ∀ u v t, t ≠ "CONTAINS_REQUIREMENT" →
      (((build b files es er).1.graph.edges.filter
        (fun e => e.src == u && e.dst == v && e.edge_type == t)).length ≤ 1) :=
  have hb := guardedUnique_build files es er h
  ⟨hb, fun u v t ht => filter_length_le_one_of_guardedUnique hb u v t ht⟩

/-- C5 witness: the amended uniqueness on the duplicate-chunk build, for the
`CONTAINS_CLAUSE` edge from `"S"` to `"C"`. -/
theorem c5_edge_uniqueness_witness :
    guardedUnique emptyBuilder.graph ∧
    ((build emptyBuilder filesDup true true).1.graph.edges.filter
      (fun e => e.src == "S" && e.dst == "C" &&
        e.edge_type == "CONTAINS_CLAUSE")).length ≤ 1 :=
  have h0 : guardedUnique emptyBuilder.graph := List.Pairwise.nil
  ⟨h0, (c5_edge_uniqueness emptyBuilder filesDup true true h0).2 "S" "C" "CONTAINS_CLAUSE"
    (by decide)⟩

/-- C6 counterexample: clause `A` (clause_id 4) is the parent of clause `B`
(clause_id 4.1) and `A`'s internal references resolve to `B`; a build with
both passes enabled does NOT produce both edges: the reference pass skips the
pair because `has_edge(A, B)` already holds for the `PARENT_OF` edge. -/
theorem c6_counterexample :
    ¬ ((build emptyBuilder filesParentRef true true).1.graph.hasEdgeType "A" "B"
        "PARENT_OF" = true ∧
       (build emptyBuilder filesParentRef true true).1.graph.hasEdgeType "A" "B"
        "REFERENCES" = true) := by
  decide

/-- C6 (amended): on that same input the build produces the `PARENT_OF` edge
from `A` to `B` and NO `REFERENCES` edge, because every guarded insertion is
skipped when an edge of any type already exists between the ordered pair;
distinct edge types can share a pair only via the unguarded
`CONTAINS_REQUIREMENT` insertion. -/
theorem c6_parent_suppresses_reference :
    (build emptyBuilder filesParentRef true true).1.graph.hasEdgeType "A" "B"
      "PARENT_OF" = true ∧
    (build emptyBuilder filesParentRef true true).1.graph.hasEdgeType "A" "B"
      "REFERENCES" = false := by
  decide

/-- C9 counterexample: clause `P`'s `references.internal_resolved` contains
`"1.1"`, which resolves to node `Q` via the clause-id lookup, yet the
reference pass adds NO `REFERENCES` edge from `P` to `Q`: a structural
`PARENT_OF` edge between the pair suppresses the insertion. -/
theorem c9_counterexample :
    "1.1" ∈ clauseP.references.internal_resolved ∧
    (clauseLookup graphPQ).lookup "1.1" = some "Q" ∧
    ("P", NodeData.clause clauseP) ∈ graphPQ.nodes ∧
    (createReferenceLinks graphPQ).hasEdgeType "P" "Q" "REFERENCES" = false := by
  refine ⟨?_, ?_, ?_, ?_⟩ <;> decide

/-- C9 (amended): after the reference pass, every Clause node whose
`references.internal_resolved` entry resolves via the clause-id lookup has
SOME edge to the resolved node — the `REFERENCES` edge is added exactly when
no edge between the pair pre-exists; otherwise the existing edge (for
example a structural `PARENT_OF`) suppresses it. -/
theorem c9_reference_links (g : Graph) (id : String) (c : ClauseData) (ref target : String)
    (hmem : (id, NodeData.clause c) ∈ g.nodes)
    (href : ref ∈ c.references.internal_resolved)
    (hres : (clauseLookup g).lookup ref = some target) :
    (createReferenceLinks g).hasEdge id target = true := by
  unfold createReferenceLinks
  obtain ⟨l₁, l₂, hsplit⟩ := List.append_of_mem hmem
  rw [hsplit, List.foldl_append, List.foldl_cons]
  apply foldl_preserve (fun (g : Graph) => g.hasEdge id target = true) _
    (fun g e hg => hasEdge_referenceStep hg)
  exact referenceStep_ensures _ _ _ _ _ _ href hres

/-- C9 witness: the amended property on the pair-without-prior-edge graph:
the pass links `P` to `Q` (here by an actual `REFERENCES` edge). -/
theorem c9_reference_links_witness :
    ("P", NodeData.clause clauseP) ∈ graphPQfree.nodes ∧
    "1.1" ∈ clauseP.references.internal_resolved ∧
    (clauseLookup graphPQfree).lookup "1.1" = some "Q" ∧
    (createReferenceLinks graphPQfree).hasEdge "P" "Q" = true :=
  ⟨by decide, by decide, by decide,
   c9_reference_links graphPQfree "P" clauseP "1.1" "Q" (by decide) (by decide) (by decide)⟩

/-- C10: `newFilesProcessed` counts every enumerated not-yet-processed file,
parse failures included; a file that fails to load stays out of the
provenance set (so the next build enumerates and attempts it again); a
document that loads but lacks `chunk_id` or `document_id` is marked
processed yet contributes nothing in the node-creation pass. -/
theorem c10_new_file_accounting (b : Builder) (files : List (String × Option Document))
    (es er : Bool) (hpaths : (files.map Prod.fst).Nodup) :
    (build b files es er).2.new_files_processed =
      (files.filter (fun f => !(b.processed_files.contains f.1))).length ∧
    (∀ p, (p, (none : Option Document)) ∈ files →
      (p ∈ (build b files es er).1.processed_files ↔ p ∈ b.processed_files)) ∧
    (∀ p d, (p, some d) ∈ files → p ∈ (build b files es er).1.processed_files) ∧
    (∀ (st : Graph × List String) (doc : Document),
      doc.chunk_id = "" ∨ doc.document_id = "" → createNodesDoc st doc = st) := by
  refine ⟨?_, ?_, ?_, ?_⟩
  · by_cases hne : (newFiles b files).isEmpty = true
    · rw [build_of_isEmpty es er hne]
      have : newFiles b files = [] := List.isEmpty_iff.mp hne
      unfold newFiles at this
      rw [this]
      rfl
    · rw [build_of_not_isEmpty es er hne]
      rfl
  · intro p hp
    constructor
    · intro hmem
      rcases (processed_build_iff es er).mp hmem with h | ⟨d, hd⟩
      · exact h
      · have hd' : (p, some d) ∈ files := (mem_newFiles_iff.mp hd).1
        exact absurd (snd_eq_of_nodup_paths hpaths hd' hp) (by simp)
    · intro h
      exact (processed_build_iff es er).mpr (Or.inl h)
  · intro p d hpd
    exact processed_of_some es er hpd
  · intro st doc hdoc
    unfold createNodesDoc
    rw [if_pos hdoc]

/-- C10 witness: one unreadable file plus one id-less document: both count
toward `new_files_processed = 2`; the unreadable one stays unprocessed, the
id-less one is marked processed and its node-creation step is a no-op. -/
theorem c10_new_file_accounting_witness :
    ((filesMixed.map Prod.fst).Nodup) ∧
    (build emptyBuilder filesMixed true true).2.new_files_processed =
      (filesMixed.filter (fun f => !(emptyBuilder.processed_files.contains f.1))).length ∧
    ("bad.json" ∈ (build emptyBuilder filesMixed true true).1.processed_files ↔
      "bad.json" ∈ emptyBuilder.processed_files) ∧
    "empty.json" ∈ (build emptyBuilder filesMixed true true).1.processed_files ∧
    createNodesDoc (emptyBuilder.graph, []) docNoIds = (emptyBuilder.graph, []) := by
  have h := c10_new_file_accounting emptyBuilder filesMixed true true (by decide)
  exact ⟨by decide, h.1, h.2.1 "bad.json" (by decide),
    h.2.2.1 "empty.json" docNoIds (by decide), h.2.2.2 _ _ (by decide)⟩

end TestPlanGen
